import Mathlib

/-!
Verification model of `src/pubnub_light.py` (class `PubNub`), a long-polling
subscribe-only PubNub client.  The Python code is shallowly embedded: each
method becomes a pure Lean function, socket input is modelled as explicit
byte/char streams together with a chunking schedule (the sizes the kernel
hands back from successive `recv` calls), and Python exceptions become an
explicit error type threaded through `Except`.

Modelling conventions, stated once here:
* Python 2 `str` values are `List Char` (header text) or `List Nat` (body
  bytes); both are byte strings in the source.
* `recv` returning the empty string (peer closed) is an empty chunk.
* In `_read_response_header` and `_read_num_bytes` every `raise SocketError`
  is immediately preceded by `self.sock.close()`; the model folds the two
  into the single error value `PyExc.socketError`, so that error value means
  "socket closed and SocketError raised".
* External collaborators that are not code of this repository (the `json`
  module, `Crypto.Cipher.AES`, `hashlib.sha256`, `base64`) are abstract
  function parameters; the JSON values they produce are modelled by `PyVal`
  (the subset of Python values the claims exercise: str, int, list).
-/

namespace PubnubLight

/-- Python exceptions that appear in `pubnub_light.py`: the module's own
`SocketError`, the bare `Exception` raised at the `read()` boundary, and the
builtin exceptions that decoding steps can raise. -/
inductive PyExc where
  | socketError
  | exception
  | valueError
  | indexError
  | typeError
deriving DecidableEq, Repr

/-- Python whitespace characters stripped by `int(str)`. -/
def pyWS (c : Char) : Bool :=
  c = ' ' || c = '\t' || c = '\r' || c = '\n' || c = '\x0b' || c = '\x0c'

/-- Strip Python whitespace from both ends of a string. -/
def pyStrip (s : List Char) : List Char :=
  ((s.dropWhile pyWS).reverse.dropWhile pyWS).reverse

/-- Interpret a nonempty run of decimal digits; `none` on the empty string or
any non-digit character. -/
def digitsToNat (s : List Char) : Option Nat :=
  if s = [] then none
  else s.foldl (fun acc c =>
    match acc with
    | none => none
    | some a => if c.isDigit then some (a * 10 + (c.toNat - 48)) else none)
    (some 0)

/-- Model of Python `int(s)` on a byte string: strip whitespace, optional
sign, decimal digits; `ValueError` otherwise. -/
def pyAtoi (s : List Char) : Except PyExc Int :=
  match pyStrip s with
  | '-' :: ds =>
    match digitsToNat ds with
    | some n => .ok (-(n : Int))
    | none => .error .valueError
  | '+' :: ds =>
    match digitsToNat ds with
    | some n => .ok ((n : Int))
    | none => .error .valueError
  | ds =>
    match digitsToNat ds with
    | some n => .ok ((n : Int))
    | none => .error .valueError

/-- Model of Python `s.split("\r\n")`: split on the two-character delimiter,
leftmost-first, keeping empty pieces (so `"".split` is `[""]`). -/
def splitCRLF : List Char → List (List Char)
  | [] => [[]]
  | '\r' :: '\n' :: rest => [] :: splitCRLF rest
  | c :: rest =>
    match splitCRLF rest with
    | [] => [[c]]
    | l :: ls => (c :: l) :: ls

/-- The header terminator `"\r\n\r\n"` tested by `hdr[-4:] == "\r\n\r\n"`. -/
def crlfcrlf : List Char := ['\r', '\n', '\r', '\n']

/-- The substring scanned for by `if "Content-Length" in line`. -/
def clKey : List Char := "Content-Length".data

/-- Model of Python substring containment `pat in s`. -/
def hasSubstr (pat : List Char) : List Char → Bool
  | [] => pat.isPrefixOf []
  | c :: rest => pat.isPrefixOf (c :: rest) || hasSubstr pat rest

/-- The scan over header lines in `_read_response_header`: the first line
containing the substring `"Content-Length"` yields `int(line[15:])`; if no
line matches, the socket is closed and `SocketError` raised. -/
def findContentLength : List (List Char) → Except PyExc Int
  | [] => .error .socketError
  | line :: rest =>
    if hasSubstr clKey line then pyAtoi (line.drop 15)
    else findContentLength rest

/-- The `while True` loop of `_read_response_header`, with `hdr` the
accumulated header text and the remaining stream the characters successive
`recv(1)` calls will yield; stream exhaustion is `recv` returning `""`. -/
def rrhGo (hdr : List Char) : List Char → Except PyExc Int
  | [] => .error .socketError
  | c :: rest =>
    if crlfcrlf.isSuffixOf (hdr ++ [c]) then
      findContentLength (splitCRLF (hdr ++ [c]))
    else rrhGo (hdr ++ [c]) rest

/-- `PubNub._read_response_header`: read one octet at a time until the
accumulated text ends in `"\r\n\r\n"`, then scan its `"\r\n"`-separated lines
for `Content-Length`. -/
def read_response_header (stream : List Char) : Except PyExc Int :=
  rrhGo [] stream

/-- True when no proper prefix of `s` ends with the header terminator, i.e.
the scan of `s` does not fire before all of `s` is consumed. -/
def noEarlyTermB (s : List Char) : Bool :=
  (List.range s.length).all fun k => !(crlfcrlf.isSuffixOf (s.take k))

/-- True when no prefix of `s` (including `s` itself) ends with the header
terminator: the terminator is never observed in the stream. -/
def noTermB (s : List Char) : Bool :=
  (List.range (s.length + 1)).all fun k => !(crlfcrlf.isSuffixOf (s.take k))

/-! ### `_read_num_bytes`: the exact-length body read -/

/-- The socket as seen by `recv` during a body read: the byte stream the
peer will deliver, and the chunking schedule — the size the kernel hands
back from each successive `recv` call (capped by the requested size and by
the bytes remaining in the stream).  A schedule entry of `0`, an exhausted
schedule, or an exhausted stream model `recv` returning `""` (peer closed). -/
structure RecvState where
  stream : List Nat
  sched : List Nat
deriving DecidableEq, Repr

/-- One `recv(req)` call: returns the delivered chunk and the new socket
state. -/
def pnRecv (st : RecvState) (req : Nat) : List Nat × RecvState :=
  match st.sched with
  | [] => ([], st)
  | n :: rest => (st.stream.take (min n req), ⟨st.stream.drop (min n req), rest⟩)

/-- The `while len(buf) < size` loop of `_read_num_bytes`, also counting the
number of `recv` calls performed.  Each iteration performs one `recv` (see
`pnRecv`, inlined here so the recursion is structural on the schedule); an
empty chunk closes the socket and raises `SocketError` (folded into
`PyExc.socketError`). -/
def rnbGo (size : Int) (buf stream sched : List Nat) (calls : Nat) :
    Except PyExc (List Nat) × RecvState × Nat :=
  if (buf.length : Int) < size then
    match sched with
    | [] => (.error .socketError, ⟨stream, []⟩, calls + 1)
    | n :: rest =>
      let c := min n (size - (buf.length : Int)).toNat
      if stream.take c = [] then (.error .socketError, ⟨stream.drop c, rest⟩, calls + 1)
      else rnbGo size (buf ++ stream.take c) (stream.drop c) rest (calls + 1)
  else (.ok buf, ⟨stream, sched⟩, calls)

/-- `PubNub._read_num_bytes(size)`: read exactly `size` bytes from the
socket, retrying short reads against the remaining count. -/
def read_num_bytes (size : Int) (st : RecvState) :
    Except PyExc (List Nat) × RecvState × Nat :=
  rnbGo size [] st.stream st.sched 0

/-! ### `_decrypt`: padding removal and the cipher pipeline -/

/-- The padding-removal step `decrypted[0:-ord(decrypted[-1])]` of
`PubNub._decrypt`, with Python slice semantics made explicit: on the empty
string `decrypted[-1]` raises `IndexError` (`none`); when the last byte is
`0` the slice is `[0:0]`, the empty string; when the last byte `n` exceeds
the length the slice is empty as well (`Nat` subtraction); otherwise the
last `n` bytes are dropped. -/
def stripPad (d : List Nat) : Option (List Nat) :=
  match d.getLast? with
  | none => none
  | some n => some (if n = 0 then [] else d.take (d.length - n))

/-- The padding the PubNub wire scheme appends before encryption: `n` copies
of the byte `n`, where `n = 16 - len(m) % 16` (always between 1 and 16), so
the plaintext becomes a positive multiple of the AES block size and its last
byte states the padding length. -/
def pad16 (m : List Nat) : List Nat :=
  m ++ List.replicate (16 - m.length % 16) (16 - m.length % 16)

/-- `PubNub._decrypt` with its external collaborators abstracted: `keyD`
models `hashlib.sha256(cipher).hexdigest()[0:32]`, `dec` models
`AES.new(key, AES.MODE_CBC, "0123456789012345").decrypt`, and `decode`
models `base64.decodestring`; the repository code contributes the
composition and the padding strip. -/
def pn_decrypt (keyD : String → List Nat) (dec : List Nat → List Nat → List Nat)
    (decode : List Nat → List Nat) (k : String) (msg : List Nat) : Option (List Nat) :=
  stripPad (dec (keyD k) (decode msg))

/-- Modelled from the spec: the encryption direction, which is not part of
the repository (PubNub's servers perform it).  Per the spec it derives the
key the same way, pads the plaintext per the scheme, applies AES-CBC with
the fixed IV (abstracted as `enc`), and base64-encodes (abstracted as
`encode`). -/
def pn_encrypt (keyD : String → List Nat) (enc : List Nat → List Nat → List Nat)
    (encode : List Nat → List Nat) (k : String) (m : List Nat) : List Nat :=
  encode (enc (keyD k) (pad16 m))

/-! ### The `PubNub` client object: `subscribe`, `kill`, `read` -/

/-- The subset of Python values the decoded JSON body can take in the parts
of `read()` the claims exercise: byte strings, integers and lists. -/
inductive PyVal where
  | pyStr (s : List Char)
  | pyInt (n : Int)
  | pyList (xs : List PyVal)

/-- Python subscripting `v[i]` for a non-negative index: lists and strings
index (strings yielding one-character strings), out of range is
`IndexError`, integers are not subscriptable (`TypeError`). -/
def pyIndex : PyVal → Nat → Except PyExc PyVal
  | .pyList xs, i =>
    match xs.get? i with
    | some v => .ok v
    | none => .error .indexError
  | .pyStr s, i =>
    match s.get? i with
    | some c => .ok (.pyStr [c])
    | none => .error .indexError
  | .pyInt _, _ => .error .typeError

/-- Python `int(v)`: the identity on integers, string parsing on strings
(`ValueError` if malformed), `TypeError` on lists. -/
def pyToInt : PyVal → Except PyExc Int
  | .pyInt n => .ok n
  | .pyStr s => pyAtoi s
  | .pyList _ => .error .typeError

/-- The in-place decryption loop `for i in range(len(msg)): msg[i] =
self._decrypt(msg[i])`, with `_decrypt` abstracted as `d`.  On a list it
decrypts every element (the first failure propagating); on a nonempty string
the first iteration evaluates `_decrypt(msg[0])` and then the item
assignment raises `TypeError`; on an empty string the loop body never runs;
`len` of an integer raises `TypeError`. -/
def decryptLoop (d : PyVal → Except PyExc PyVal) : PyVal → Except PyExc PyVal
  | .pyList xs => Except.map PyVal.pyList (xs.mapM d)
  | .pyStr [] => .ok (.pyStr [])
  | .pyStr (c :: _) =>
    match d (.pyStr [c]) with
    | .error e => .error e
    | .ok _ => .error .typeError
  | .pyInt _ => .error .typeError

/-- The mutable fields of the `PubNub` object that the claims concern.  The
`uuid` field (constant per instance) and the socket object itself are not
modelled; socket effects appear as the `SockAct` trace returned by each
operation. -/
structure ClientState where
  timestamp : Int
  connected : Bool
  sub : String
  chan : String
  auth : String
  cipher : String
  ssl : Bool
deriving DecidableEq, Repr

/-- Socket operations an API call performs, in order.  `recvH` stands for
the header-reading `recv(1)` loop, `recvB` for the body-reading loop; the
internal `close()` calls folded into `PyExc.socketError` are not repeated in
the trace. -/
inductive SockAct where
  | connect
  | send
  | recvH
  | recvB
  | shutdownCall
  | closeCall
deriving DecidableEq, Repr

/-- The network environment one `read()` call runs against: the characters
the header `recv(1)` loop will see, and the body byte stream with its
chunking schedule. -/
structure Net where
  headerStream : List Char
  bodyStream : List Nat
  bodySched : List Nat

/-- `PubNub.kill()`: if connected, clear the connected flag and force-close
the socket (`shutdown(2)` then `close()`); otherwise do nothing. -/
def pn_kill (st : ClientState) : ClientState × List SockAct :=
  if st.connected then
    ({st with connected := false}, [.shutdownCall, .closeCall])
  else (st, [])

/-- `PubNub.subscribe(sub, chan, auth, cipher, ssl)`: store the new
subscription parameters (the Python defaults are `auth=""`, `cipher=""`,
`ssl=False`), then call `kill()` to force any active longpoll to abort. -/
def pn_subscribe (sub chan auth cipher : String) (ssl : Bool) (st : ClientState) :
    ClientState × List SockAct :=
  pn_kill {st with sub := sub, chan := chan, auth := auth, cipher := cipher, ssl := ssl}

/-- The body of the `try:` block in the second half of `read()`: read the
declared number of body bytes, `json.loads` them (abstracted as `jl`, with
`none` modelling `ValueError`), store `int(data[1])` into `timestamp`, then
decrypt `data[0]` element-wise when a cipher key is set (`_decrypt`
abstracted as `dec`, applied to the stored cipher key). -/
def readPhase2 (net : Net) (jl : List Nat → Option PyVal)
    (dec : String → PyVal → Except PyExc PyVal) (size : Int) (st : ClientState) :
    Except PyExc PyVal × ClientState :=
  match (read_num_bytes size ⟨net.bodyStream, net.bodySched⟩).1 with
  | .error e => (.error e, st)
  | .ok res =>
    match jl res with
    | none => (.error .valueError, st)
    | some data =>
      match pyIndex data 1 with
      | .error e => (.error e, st)
      | .ok d1 =>
        match pyToInt d1 with
        | .error e => (.error e, st)
        | .ok t =>
          let st2 := {st with timestamp := t}
          match pyIndex data 0 with
          | .error e => (.error e, st2)
          | .ok msg =>
            if st2.cipher = "" then (.ok msg, st2)
            else
              match decryptLoop (dec st2.cipher) msg with
              | .error e => (.error e, st2)
              | .ok msg2 => (.ok msg2, st2)

/-- The `except SocketError:` handler wrapped around the second half of
`read()`: a `SocketError` escaping the body phase clears the connected flag
and is re-raised as the bare `Exception`; any other exception propagates
unchanged, leaving the state as the body phase left it. -/
def readRest (net : Net) (jl : List Nat → Option PyVal)
    (dec : String → PyVal → Except PyExc PyVal) (size : Int) (st : ClientState)
    (acts : List SockAct) : Except PyExc PyVal × ClientState × List SockAct :=
  match readPhase2 net jl dec size st with
  | (.error .socketError, st2) => (.error .exception, {st2 with connected := false}, acts ++ [.recvB])
  | (r, st2) => (r, st2, acts ++ [.recvB])

/-- `PubNub.read()`: if not connected, `_connect()` (socket creation,
`connect`, then `_send_request`, i.e. `send` plus the header read) and set
the connected flag on success — a `SocketError` here is re-raised as the
bare `Exception` with the flag still clear; if connected, `_send_request()`
over the kept-alive socket — a `SocketError` here clears the flag and
re-raises the bare `Exception`.  A non-`SocketError` exception from the
header read (e.g. `ValueError` from `int`) propagates unchanged.  Then the
body phase runs under its own `except SocketError` handler (`readRest`). -/
def pn_read (net : Net) (jl : List Nat → Option PyVal)
    (dec : String → PyVal → Except PyExc PyVal) (st : ClientState) :
    Except PyExc PyVal × ClientState × List SockAct :=
  if st.connected then
    match read_response_header net.headerStream with
    | .error .socketError => (.error .exception, {st with connected := false}, [.send, .recvH])
    | .error e => (.error e, st, [.send, .recvH])
    | .ok size => readRest net jl dec size st [.send, .recvH]
  else
    match read_response_header net.headerStream with
    | .error .socketError => (.error .exception, st, [.connect, .send, .recvH])
    | .error e => (.error e, st, [.connect, .send, .recvH])
    | .ok size => readRest net jl dec size {st with connected := true} [.connect, .send, .recvH]

/-! ### Concrete fixtures used by counterexamples and witnesses -/

/-- A subscribed, connected client with timetoken 0. -/
def stA : ClientState := ⟨0, true, "sub-x", "chan-a", "", "", false⟩

/-- A subscribed, connected client whose timetoken is already 5. -/
def stT : ClientState := ⟨5, true, "sub-x", "chan-a", "", "", false⟩

/-- A JSON collaborator that decodes every body to `[[], 14]`. -/
def jl0 : List Nat → Option PyVal := fun _ => some (.pyList [.pyList [], .pyInt 14])

/-- A decrypt collaborator that returns its input unchanged. -/
def dec0 : String → PyVal → Except PyExc PyVal := fun _ v => .ok v

/-- A network that answers with `Content-Length: 2` and the body `"[]"`. -/
def net0 : Net := ⟨"Content-Length: 2\r\n\r\n".data, [91, 93], [2]⟩

/-- A JSON collaborator that always fails (`ValueError`). -/
def jlNone : List Nat → Option PyVal := fun _ => none

/-- A decrypt collaborator that always fails. -/
def decFail : String → PyVal → Except PyExc PyVal := fun _ _ => .error .typeError

/-- A JSON collaborator decoding body `"0"` to `[[], 5]` and `"1"` to
`[[], 3]`. -/
def jl8 : List Nat → Option PyVal := fun b =>
  if b = [48] then some (.pyList [.pyList [], .pyInt 5])
  else if b = [49] then some (.pyList [.pyList [], .pyInt 3])
  else none

/-- A network delivering the one-byte body `"0"`. -/
def net8a : Net := ⟨"Content-Length: 1\r\n\r\n".data, [48], [1]⟩

/-- A network delivering the one-byte body `"1"`. -/
def net8b : Net := ⟨"Content-Length: 1\r\n\r\n".data, [49], [1]⟩

/-- A bytes-to-bytes identity, standing in for base64 in witnesses. -/
def idBytes : List Nat → List Nat := fun x => x

/-- A keyed identity cipher, standing in for AES-CBC in witnesses. -/
def idCipher : List Nat → List Nat → List Nat := fun _ x => x

/-- A trivial key derivation, standing in for sha256 in witnesses. -/
def keyD0 : String → List Nat := fun _ => []

/-! ### Claim theorems -/

/-- Behaviour of the `_read_num_bytes` loop when the buffer is already
full: return it without touching the socket. -/
lemma rnbGo_stop {size : Int} {buf stream sched : List Nat} {calls : Nat}
    (h : ¬ ((buf.length : Int) < size)) :
    rnbGo size buf stream sched calls = (.ok buf, ⟨stream, sched⟩, calls) := by
  cases sched <;> simp [rnbGo, h]

/-- Evaluation of the padding strip when the last byte is a nonzero `n`. -/
lemma stripPad_some {d : List Nat} {n : Nat} (h : d.getLast? = some n) (hn : ¬ n = 0) :
    stripPad d = some (d.take (d.length - n)) := by
  unfold stripPad
  rw [h]
  simp [hn]

/-- C10: for every target byte count `size ≤ 0`, `_read_num_bytes` returns
the empty string immediately, leaving the socket untouched: no `recv` is
performed and the socket state is unchanged. -/
theorem c10_read_num_bytes_nonpositive (size : Int) (st : RecvState) (h : size ≤ 0) :
    read_num_bytes size st = (.ok [], st, 0) := by
  unfold read_num_bytes
  rw [rnbGo_stop (by simp only [List.length_nil, Nat.cast_zero]; omega)]

/-- Witness for C10 at the concrete sizes 0 and -3. -/
theorem c10_witness :
    read_num_bytes 0 ⟨[1, 2], [1]⟩ = (.ok [], ⟨[1, 2], [1]⟩, 0) ∧
    read_num_bytes (-3) ⟨[5], [2]⟩ = (.ok [], ⟨[5], [2]⟩, 0) :=
  ⟨c10_read_num_bytes_nonpositive 0 ⟨[1, 2], [1]⟩ (by decide),
   c10_read_num_bytes_nonpositive (-3) ⟨[5], [2]⟩ (by decide)⟩

/-- C4 counterexample: a decrypted buffer whose last byte is `0` satisfies
the claim's precondition (`0` does not exceed the length), yet the code
returns the empty string instead of the buffer with zero trailing bytes
removed (`d[0:-0]` is `d[0:0]`). -/
theorem c4_counterexample :
    stripPad [65, 0] = some [] ∧ stripPad [65, 0] ≠ some [65, 0] := by
  constructor <;> decide

/-- C4 amended: when the last byte `n` of the decrypted buffer satisfies
`1 ≤ n ≤ len(d)`, `_decrypt`'s padding strip returns `d` with exactly `n`
trailing bytes removed; the claim's statement fails at `n = 0`, where the
whole buffer is dropped. -/
theorem c4_strip_pad_amended (d : List Nat) (n : Nat)
    (hl : d.getLast? = some n) (h1 : 1 ≤ n) (h2 : n ≤ d.length) :
    stripPad d = some (d.take (d.length - n)) ∧
    (d.take (d.length - n)).length + n = d.length := by
  constructor
  · exact stripPad_some hl (by omega)
  · rw [List.length_take]
    omega

/-- Witness for C4 at the concrete buffer `[7, 7, 2]` (padding length 2). -/
theorem c4_witness :
    stripPad [7, 7, 2] = some (([7, 7, 2] : List Nat).take 1) ∧
    (([7, 7, 2] : List Nat).take 1).length + 2 = 3 :=
  c4_strip_pad_amended [7, 7, 2] 2 (by decide) (by decide) (by decide)

/-- C3 counterexample: `subscribe()` does not reset the timetoken — a client
whose timetoken is 5 keeps it after `subscribe()` replaces the parameters. -/
theorem c3_counterexample :
    ((pn_subscribe "s" "c" "" "" false stT).1).timestamp = 5 ∧
    ((pn_subscribe "s" "c" "" "" false stT).1).timestamp ≠ 0 := by
  constructor <;> decide

/-- C3 amended: `subscribe(sub, chan, auth, cipher, ssl)` replaces all
subscription parameters with the new values and aborts any currently-open
connection via `kill()` (leaving the connection state disconnected), but it
does not reset the timetoken, which keeps its previous value; the code has
no kill flag distinct from the connected flag. -/
theorem c3_subscribe_amended (sub chan auth cipher : String) (ssl : Bool) (st : ClientState) :
    ((pn_subscribe sub chan auth cipher ssl st).1).sub = sub ∧
    ((pn_subscribe sub chan auth cipher ssl st).1).chan = chan ∧
    ((pn_subscribe sub chan auth cipher ssl st).1).auth = auth ∧
    ((pn_subscribe sub chan auth cipher ssl st).1).cipher = cipher ∧
    ((pn_subscribe sub chan auth cipher ssl st).1).ssl = ssl ∧
    ((pn_subscribe sub chan auth cipher ssl st).1).connected = false ∧
    ((pn_subscribe sub chan auth cipher ssl st).1).timestamp = st.timestamp := by
  unfold pn_subscribe pn_kill
  by_cases h : st.connected <;> simp [h]

/-- C1 counterexample: after `kill()` on a connected client (and no
`subscribe()` since), the next `read()` does not raise a "killed" error and
does perform socket I/O — it opens a fresh connection, sends a request, and
returns the decoded messages. -/
theorem c1_counterexample :
    ((pn_kill stA).1).connected = false ∧
    (pn_read net0 jl0 dec0 (pn_kill stA).1).1 = Except.ok (PyVal.pyList []) ∧
    (pn_read net0 jl0 dec0 (pn_kill stA).1).2.2 =
      [SockAct.connect, SockAct.send, SockAct.recvH, SockAct.recvB] :=
  ⟨rfl, rfl, rfl⟩

/-- C1 amended: the code has no kill flag and no distinct "killed" error;
`kill()` only clears the connected flag (closing the socket), and every
subsequent `read()` performs socket I/O again, beginning with a fresh
`connect`. -/
theorem c1_kill_amended :
    (∀ st : ClientState, ((pn_kill st).1).connected = false) ∧
    (∀ (net : Net) (jl : List Nat → Option PyVal)
       (dec : String → PyVal → Except PyExc PyVal) (st : ClientState),
       st.connected = false →
       SockAct.connect ∈ (pn_read net jl dec st).2.2) := by
  constructor
  · intro st
    unfold pn_kill
    by_cases h : st.connected <;> simp [h]
  · intro net jl dec st h
    unfold pn_read
    rw [h]
    simp only [Bool.false_eq_true, if_false]
    split
    · simp
    · simp
    · unfold readRest
      split <;> simp

/-- Witness for C1 amended: a killed client (connected flag cleared) whose
next `read()` emits a `connect`. -/
theorem c1_witness :
    SockAct.connect ∈ (pn_read net0 jl0 dec0 (pn_kill stA).1).2.2 :=
  c1_kill_amended.2 net0 jl0 dec0 (pn_kill stA).1 (by decide)

/-- C7: encrypting per the wire scheme (same key derivation, padding per the
scheme, AES-CBC with the fixed IV, base64) and then applying `_decrypt` with
the same passphrase reproduces the plaintext.  The external collaborators —
sha256-based key derivation, the AES-CBC block cipher under the fixed IV,
and base64 — are abstract parameters, assumed to be inverse pairs. -/
theorem c7_roundtrip (keyD : String → List Nat) (enc dec : List Nat → List Nat → List Nat)
    (encode decode : List Nat → List Nat) (k : String) (m : List Nat)
    (hb : ∀ x, decode (encode x) = x)
    (ha : ∀ key x, dec key (enc key x) = x)
    (_hm : m ≠ []) :
    pn_decrypt keyD dec decode k (pn_encrypt keyD enc encode k m) = some m := by
  unfold pn_decrypt pn_encrypt
  rw [hb, ha]
  unfold pad16
  set nn := 16 - m.length % 16 with hnn
  have hn1 : 1 ≤ nn := by omega
  have hlast : (m ++ List.replicate nn nn).getLast? = some nn := by
    rw [List.getLast?_append, List.getLast?_replicate, if_neg (by omega)]
    rfl
  rw [stripPad_some hlast (by omega)]
  have hlen : (m ++ List.replicate nn nn).length - nn = m.length := by
    simp [List.length_append, List.length_replicate]
  rw [hlen, List.take_left' rfl]

/-- Witness for C7 at the concrete plaintext `[1, 2, 3]` and passphrase
`"enigma"`, with identity collaborators. -/
theorem c7_witness :
    pn_decrypt keyD0 idCipher idBytes "enigma"
      (pn_encrypt keyD0 idCipher idBytes "enigma" [1, 2, 3]) = some [1, 2, 3] :=
  c7_roundtrip keyD0 idCipher idCipher idBytes idBytes "enigma" [1, 2, 3]
    (fun _ => rfl) (fun _ _ => rfl) (by decide)

/-- One iteration of the `_read_num_bytes` loop when the buffer is short
and the chunk delivered is nonempty. -/
lemma rnbGo_cons_step {size : Int} {buf stream : List Nat} {n : Nat} {rest : List Nat}
    {calls : Nat} (h : (buf.length : Int) < size)
    (hc : ¬ stream.take (min n (size - (buf.length : Int)).toNat) = []) :
    rnbGo size buf stream (n :: rest) calls =
      rnbGo size (buf ++ stream.take (min n (size - (buf.length : Int)).toNat))
        (stream.drop (min n (size - (buf.length : Int)).toNat)) rest (calls + 1) := by
  simp only [rnbGo, h, if_true]
  rw [if_neg hc]

/-- Main loop invariant of `_read_num_bytes`: as long as every scheduled
chunk is nonempty and both the stream and the schedule can cover the
`k` bytes still missing, the loop returns the buffer extended with exactly
the next `k` bytes of the stream. -/
lemma rnbGo_ok (k : Nat) : ∀ (size : Int) (buf stream sched : List Nat) (calls : Nat),
    k = (size - (buf.length : Int)).toNat →
    (∀ n ∈ sched, 1 ≤ n) →
    k ≤ stream.length → k ≤ sched.length →
    (rnbGo size buf stream sched calls).1 = .ok (buf ++ stream.take k) := by
  induction k using Nat.strong_induction_on with
  | _ k ih =>
    intro size buf stream sched calls hk hall hs hsch
    by_cases h : (buf.length : Int) < size
    · have hk1 : 1 ≤ k := by omega
      cases sched with
      | nil => simp at hsch; omega
      | cons n rest =>
        have hn : 1 ≤ n := hall n (List.mem_cons_self _ _)
        set c := min n (size - (buf.length : Int)).toNat with hcdef
        have hck : c = min n k := by omega
        have hc1 : 1 ≤ c := by omega
        have hck2 : c ≤ k := by omega
        have hchunk : ¬ stream.take c = [] := by
          intro hemp
          have := congrArg List.length hemp
          simp only [List.length_take, List.length_nil] at this
          omega
        rw [rnbGo_cons_step h hchunk]
        have hlen_chunk : (stream.take c).length = c := by
          simp only [List.length_take]
          omega
        have hk2 : k - c = (size - (((buf ++ stream.take c)).length : Int)).toNat := by
          simp only [List.length_append, hlen_chunk]
          omega
        rw [ih (k - c) (by omega) size (buf ++ stream.take c) (stream.drop c) rest (calls + 1)
          hk2 (fun m hm => hall m (List.mem_cons_of_mem _ hm))
          (by simp only [List.length_drop]; omega)
          (by simp only [List.length_cons] at hsch; omega)]
        have htk : stream.take c ++ (stream.drop c).take (k - c) = stream.take k := by
          rw [← List.take_add]
          congr 1
          omega
        rw [List.append_assoc, htk]
    · have hk0 : k = 0 := by omega
      rw [rnbGo_stop h]
      simp [hk0]

/-- C5: with each scheduled `recv` delivering a nonempty chunk (a prefix of
whatever remains of the stream, never more than requested) and stream and
schedule long enough, `_read_num_bytes` returns byte-for-byte the first
`size` bytes of the stream, regardless of chunk boundaries; and whenever a
`recv` returns zero bytes while the buffer is still short, the loop closes
the socket and raises `SocketError`. -/
theorem c5_read_num_bytes :
    (∀ (size : Int) (st : RecvState),
      (∀ n ∈ st.sched, 1 ≤ n) →
      size.toNat ≤ st.stream.length →
      size.toNat ≤ st.sched.length →
      (read_num_bytes size st).1 = .ok (st.stream.take size.toNat)) ∧
    (∀ (size : Int) (buf : List Nat) (st : RecvState) (calls : Nat),
      (buf.length : Int) < size →
      (pnRecv st (size - (buf.length : Int)).toNat).1 = [] →
      (rnbGo size buf st.stream st.sched calls).1 = .error .socketError) := by
  constructor
  · intro size st hall hs hsch
    have := rnbGo_ok size.toNat size [] st.stream st.sched 0 (by simp) hall hs hsch
    simpa using this
  · intro size buf st calls h hrecv
    obtain ⟨stream, sched⟩ := st
    cases sched with
    | nil => simp [rnbGo, h]
    | cons n rest =>
      simp only [pnRecv] at hrecv
      simp only [rnbGo, h, if_true]
      rw [if_pos hrecv]

/-- Witness for C5: a 3-byte read delivered in chunks of 2 then 1, and a
zero-byte `recv` (empty stream) causing the failure. -/
theorem c5_witness :
    (read_num_bytes 3 ⟨[10, 20, 30, 40], [2, 1, 5]⟩).1 =
      .ok (([10, 20, 30, 40] : List Nat).take (3 : Int).toNat) ∧
    (rnbGo 2 [] [] [1] 0).1 = .error .socketError :=
  ⟨c5_read_num_bytes.1 3 ⟨[10, 20, 30, 40], [2, 1, 5]⟩ (by decide) (by decide) (by decide),
   c5_read_num_bytes.2 2 [] ⟨[], [1]⟩ 0 (by decide) rfl⟩

/-- Crossing a stretch of the stream during the header loop: if no
intermediate accumulation ends with the terminator, the stretch just moves
into the accumulator. -/
lemma rrhGo_through (pre : List Char) : ∀ (rest hdr : List Char),
    (∀ k, k < pre.length → crlfcrlf.isSuffixOf (hdr ++ pre.take (k + 1)) = false) →
    rrhGo hdr (pre ++ rest) = rrhGo (hdr ++ pre) rest := by
  induction pre with
  | nil =>
    intro rest hdr _
    simp
  | cons c pre2 ih =>
    intro rest hdr h
    have h1 : crlfcrlf.isSuffixOf (hdr ++ [c]) = false := by
      have := h 0 (by simp)
      simpa using this
    rw [List.cons_append]
    simp only [rrhGo, h1, Bool.false_eq_true, if_false]
    rw [ih rest (hdr ++ [c]) (fun k hk => by
      have := h (k + 1) (by simp only [List.length_cons]; omega)
      simpa [List.take_succ_cons] using this)]
    congr 1
    simp

/-- If the stream never shows the terminator, the header loop consumes it
entirely and fails with `SocketError` when `recv` returns no byte. -/
lemma rrhGo_no_term : ∀ (stream hdr : List Char),
    (∀ k, k ≤ stream.length → crlfcrlf.isSuffixOf (hdr ++ stream.take k) = false) →
    rrhGo hdr stream = .error .socketError := by
  intro stream
  induction stream with
  | nil =>
    intro hdr _
    rfl
  | cons c rest ih =>
    intro hdr h
    have h1 : crlfcrlf.isSuffixOf (hdr ++ [c]) = false := by
      have := h 1 (by simp)
      simpa [List.take_succ_cons] using this
    simp only [rrhGo, h1, Bool.false_eq_true, if_false]
    exact ih (hdr ++ [c]) (fun k hk => by
      have := h (k + 1) (by simp only [List.length_cons]; omega)
      simpa [List.take_succ_cons] using this)

/-- If no header line contains the `Content-Length` substring, the scan
closes the socket and raises `SocketError`. -/
lemma findContentLength_none : ∀ (lines : List (List Char)),
    (∀ l ∈ lines, hasSubstr clKey l = false) →
    findContentLength lines = .error .socketError := by
  intro lines
  induction lines with
  | nil =>
    intro _
    rfl
  | cons l rest ih =>
    intro h
    have h1 := h l (List.mem_cons_self _ _)
    simp only [findContentLength, h1, Bool.false_eq_true, if_false]
    exact ih (fun x hx => h x (List.mem_cons_of_mem _ hx))

/-- Unpacking the Boolean no-early-terminator check. -/
lemma noEarlyTermB_spec {s : List Char} (h : noEarlyTermB s = true) :
    ∀ k, k < s.length → crlfcrlf.isSuffixOf (s.take k) = false := by
  intro k hk
  have := List.all_eq_true.mp h k (List.mem_range.mpr hk)
  simpa using this

/-- Unpacking the Boolean no-terminator-at-all check. -/
lemma noTermB_spec {s : List Char} (h : noTermB s = true) :
    ∀ k, k ≤ s.length → crlfcrlf.isSuffixOf (s.take k) = false := by
  intro k hk
  have := List.all_eq_true.mp h k (List.mem_range.mpr (by omega))
  simpa using this

/-- When the stream's first terminator occurrence ends at `pre ++ crlfcrlf`,
the header loop stops exactly there and hands `pre ++ crlfcrlf` to the
`Content-Length` scan. -/
lemma rrhGo_finds (pre rest : List Char)
    (hne : ∀ k, k < (pre ++ crlfcrlf).length →
      crlfcrlf.isSuffixOf ((pre ++ crlfcrlf).take k) = false) :
    read_response_header (pre ++ crlfcrlf ++ rest) =
      findContentLength (splitCRLF (pre ++ crlfcrlf)) := by
  unfold read_response_header
  have hpref : (pre ++ crlfcrlf).take (pre.length + 3) = pre ++ ['\r', '\n', '\r'] := by
    rw [List.take_append]
    rfl
  have hsplit : pre ++ crlfcrlf ++ rest = (pre ++ ['\r', '\n', '\r']) ++ ('\n' :: rest) := by
    simp [crlfcrlf]
  rw [hsplit]
  rw [rrhGo_through (pre ++ ['\r', '\n', '\r']) ('\n' :: rest) [] (fun k hk => by
    rw [List.nil_append]
    have hk3 : k < pre.length + 3 := by
      simpa using hk
    have heq : (pre ++ ['\r', '\n', '\r']).take (k + 1) = (pre ++ crlfcrlf).take (k + 1) := by
      rw [← hpref, List.take_take]
      congr 1
      omega
    rw [heq]
    exact hne (k + 1) (by simp only [List.length_append, crlfcrlf]; simp; omega))]
  rw [List.nil_append]
  have hterm : crlfcrlf.isSuffixOf ((pre ++ ['\r', '\n', '\r']) ++ ['\n']) = true := by
    have heq2 : (pre ++ ['\r', '\n', '\r']) ++ ['\n'] = pre ++ crlfcrlf := by
      simp [crlfcrlf]
    rw [heq2]
    simp [List.isSuffixOf_iff_suffix]
  simp only [rrhGo, hterm, if_true]
  congr 1
  simp [crlfcrlf]

/-- C6: the header read consumes octets until the first occurrence of
`CRLFCRLF` and returns the integer extracted from the `Content-Length`
line of the consumed header; if the stream ends (zero-byte `recv`) before
the terminator is ever seen, or the terminator is seen but no line contains
`Content-Length`, the socket is closed and `SocketError` raised. -/
theorem c6_read_response_header :
    (∀ (pre rest : List Char) (v : Int),
      noEarlyTermB (pre ++ crlfcrlf) = true →
      findContentLength (splitCRLF (pre ++ crlfcrlf)) = .ok v →
      read_response_header (pre ++ crlfcrlf ++ rest) = .ok v) ∧
    (∀ stream : List Char, noTermB stream = true →
      read_response_header stream = .error .socketError) ∧
    (∀ pre rest : List Char,
      noEarlyTermB (pre ++ crlfcrlf) = true →
      ((splitCRLF (pre ++ crlfcrlf)).all fun l => !(hasSubstr clKey l)) = true →
      read_response_header (pre ++ crlfcrlf ++ rest) = .error .socketError) := by
  refine ⟨?_, ?_, ?_⟩
  · intro pre rest v hne hf
    rw [rrhGo_finds pre rest (noEarlyTermB_spec hne)]
    exact hf
  · intro stream hnt
    unfold read_response_header
    exact rrhGo_no_term stream [] (fun k hk => by simpa using noTermB_spec hnt k hk)
  · intro pre rest hne hncl
    rw [rrhGo_finds pre rest (noEarlyTermB_spec hne)]
    exact findContentLength_none _ (fun l hl => by
      have := List.all_eq_true.mp hncl l hl
      simpa using this)

/-- Witness for C6: a normal response header yielding 26; a stream with no
terminator; a terminated header without a `Content-Length` line. -/
theorem c6_witness :
    read_response_header ("HTTP/1.1 200 OK\r\nContent-Length: 26".data ++ crlfcrlf ++ "body".data) = .ok 26 ∧
    read_response_header "HTTP/1.1 200".data = .error .socketError ∧
    read_response_header ("Foo: 1".data ++ crlfcrlf ++ "x".data) = .error .socketError :=
  ⟨c6_read_response_header.1 "HTTP/1.1 200 OK\r\nContent-Length: 26".data "body".data 26
     (by decide) rfl,
   c6_read_response_header.2.1 "HTTP/1.1 200".data (by decide),
   c6_read_response_header.2.2 "Foo: 1".data "x".data (by decide) (by decide)⟩

/-- Reduction of `read()` through a successful header phase on an
already-connected client. -/
lemma pn_read_connected_ok {net : Net} {jl : List Nat → Option PyVal}
    {dec : String → PyVal → Except PyExc PyVal} {st : ClientState} {size : Int}
    (hc : st.connected = true)
    (hh : read_response_header net.headerStream = .ok size) :
    pn_read net jl dec st = readRest net jl dec size st [.send, .recvH] := by
  unfold pn_read
  rw [hc, hh]
  simp

/-- Reduction of `read()` through a successful header phase, for either
connection state. -/
lemma pn_read_header_ok {net : Net} {jl : List Nat → Option PyVal}
    {dec : String → PyVal → Except PyExc PyVal} {st : ClientState} {size : Int}
    (hh : read_response_header net.headerStream = .ok size) :
    pn_read net jl dec st =
      if st.connected then readRest net jl dec size st [.send, .recvH]
      else readRest net jl dec size {st with connected := true} [.connect, .send, .recvH] := by
  unfold pn_read
  rw [hh]

/-- The body phase on the fully successful parse prefix: bytes read, JSON a
list, second element an int `t`, first element present; the state update is
exactly `timestamp := t`, and with no cipher configured the raw first
element is returned. -/
lemma readPhase2_ok_val {net : Net} {jl : List Nat → Option PyVal}
    {dec : String → PyVal → Except PyExc PyVal} {size : Int} {st : ClientState}
    {res : List Nat} {xs : List PyVal} {d1 : PyVal} {t : Int} {x0 : PyVal}
    (hcip : st.cipher = "")
    (hb : (read_num_bytes size ⟨net.bodyStream, net.bodySched⟩).1 = .ok res)
    (hj : jl res = some (.pyList xs))
    (h1 : xs.get? 1 = some d1) (ht : pyToInt d1 = .ok t) (h0 : xs.get? 0 = some x0) :
    readPhase2 net jl dec size st = (.ok x0, {st with timestamp := t}) := by
  unfold readPhase2
  rw [hb]
  simp only [hj, pyIndex, h1, ht, h0]
  have : ({st with timestamp := t} : ClientState).cipher = "" := hcip
  rw [if_pos this]

/-- The `except SocketError` wrapper is inert on a successful body phase. -/
lemma readRest_of_phase2_ok {net : Net} {jl : List Nat → Option PyVal}
    {dec : String → PyVal → Except PyExc PyVal} {size : Int} {st stp : ClientState}
    {acts : List SockAct} {p : PyVal}
    (h : readPhase2 net jl dec size st = (.ok p, stp)) :
    readRest net jl dec size st acts = (.ok p, stp, acts ++ [.recvB]) := by
  unfold readRest
  rw [h]

/-- The timetoken the body phase leaves behind is whatever `int(data[1])`
produced, whenever the parse got that far. -/
lemma readPhase2_timestamp {net : Net} {jl : List Nat → Option PyVal}
    {dec : String → PyVal → Except PyExc PyVal} {size : Int} {st : ClientState}
    {res : List Nat} {xs : List PyVal} {t : Int}
    (hb : (read_num_bytes size ⟨net.bodyStream, net.bodySched⟩).1 = .ok res)
    (hj : jl res = some (.pyList xs))
    (hg : xs.get? 1 = some (.pyInt t)) :
    (readPhase2 net jl dec size st).2 = {st with timestamp := t} := by
  unfold readPhase2
  rw [hb]
  cases xs with
  | nil => simp at hg
  | cons x xs2 =>
    simp only [hj, pyIndex, hg, pyToInt, List.get?_cons_zero]
    split
    · rfl
    · split <;> rfl

/-- The `except SocketError` wrapper never changes the timestamp field. -/
lemma readRest_timestamp {net : Net} {jl : List Nat → Option PyVal}
    {dec : String → PyVal → Except PyExc PyVal} {size : Int} {st : ClientState}
    {acts : List SockAct} :
    ((readRest net jl dec size st acts).2.1).timestamp =
      ((readPhase2 net jl dec size st).2).timestamp := by
  unfold readRest
  split
  · next st2 heq =>
    rw [heq]
  · next r st2 heq =>
    rw [heq]

/-- C2 counterexample: on a connected client with a well-framed response
whose body fails to decode as JSON, `read()` raises `ValueError` — not the
generic `Exception` used for transport failures — and leaves the connection
state `Connected`. -/
theorem c2_counterexample :
    (pn_read net0 jlNone dec0 stA).1 = Except.error PyExc.valueError ∧
    ((pn_read net0 jlNone dec0 stA).2.1).connected = true ∧
    PyExc.valueError ≠ PyExc.exception :=
  ⟨rfl, rfl, by decide⟩

/-- C2 amended: after a successful header phase on a connected client, a
transport failure during the body read sets `Disconnected` and raises the
generic `Exception`; but a decode failure — body not valid JSON, no second
element, or second element not coercible to an integer — raises the
corresponding decode exception unchanged and leaves the connection state
`Connected` (the `except SocketError` handler does not catch it). -/
theorem c2_decode_failure (net : Net) (jl : List Nat → Option PyVal)
    (dec : String → PyVal → Except PyExc PyVal) (st : ClientState) (size : Int)
    (hc : st.connected = true)
    (hh : read_response_header net.headerStream = .ok size) :
    ((read_num_bytes size ⟨net.bodyStream, net.bodySched⟩).1 = .error .socketError →
      pn_read net jl dec st =
        (.error .exception, {st with connected := false}, [.send, .recvH, .recvB])) ∧
    (∀ res, (read_num_bytes size ⟨net.bodyStream, net.bodySched⟩).1 = .ok res →
      jl res = none →
      pn_read net jl dec st = (.error .valueError, st, [.send, .recvH, .recvB])) ∧
    (∀ res xs, (read_num_bytes size ⟨net.bodyStream, net.bodySched⟩).1 = .ok res →
      jl res = some (.pyList xs) → xs.get? 1 = none →
      pn_read net jl dec st = (.error .indexError, st, [.send, .recvH, .recvB])) ∧
    (∀ res xs d e, (read_num_bytes size ⟨net.bodyStream, net.bodySched⟩).1 = .ok res →
      jl res = some (.pyList xs) → xs.get? 1 = some d →
      pyToInt d = .error e → e ≠ .socketError →
      pn_read net jl dec st = (.error e, st, [.send, .recvH, .recvB])) := by
  refine ⟨?_, ?_, ?_, ?_⟩
  · intro hb
    rw [pn_read_connected_ok hc hh]
    unfold readRest readPhase2
    rw [hb]
    rfl
  · intro res hb hj
    rw [pn_read_connected_ok hc hh]
    unfold readRest readPhase2
    rw [hb]
    simp only [hj]
    rfl
  · intro res xs hb hj hg
    rw [pn_read_connected_ok hc hh]
    unfold readRest readPhase2
    rw [hb]
    simp only [hj, pyIndex, hg]
    rfl
  · intro res xs d e hb hj hg ht he
    rw [pn_read_connected_ok hc hh]
    unfold readRest readPhase2
    rw [hb]
    simp only [hj, pyIndex, hg, ht]
    cases e
    · exact absurd rfl he
    · rfl
    · rfl
    · rfl
    · rfl

/-- Witness for C2 amended: the connected client `stA` against `net0` with
a JSON collaborator that always fails. -/
theorem c2_witness :
    pn_read net0 jlNone dec0 stA =
      (.error .valueError, stA, [.send, .recvH, .recvB]) :=
  (c2_decode_failure net0 jlNone dec0 stA 2 rfl rfl).2.1 [91, 93] rfl rfl

/-- C8 counterexample: the stored timetoken is whatever the server returns;
two successful reads whose responses carry 5 and then 3 leave the timetoken
at 3, strictly below its value after the previous successful read. -/
theorem c8_counterexample :
    (pn_read net8a jl8 dec0 stA).1 = Except.ok (PyVal.pyList []) ∧
    ((pn_read net8a jl8 dec0 stA).2.1).timestamp = 5 ∧
    (pn_read net8b jl8 dec0 (pn_read net8a jl8 dec0 stA).2.1).1 = Except.ok (PyVal.pyList []) ∧
    ((pn_read net8b jl8 dec0 (pn_read net8a jl8 dec0 stA).2.1).2.1).timestamp = 3 ∧
    ((pn_read net8b jl8 dec0 (pn_read net8a jl8 dec0 stA).2.1).2.1).timestamp <
      ((pn_read net8a jl8 dec0 stA).2.1).timestamp :=
  ⟨rfl, rfl, rfl, rfl, by decide⟩

/-- C8 amended: after each successful `read()` the stored timetoken equals
the value returned with that response (`int(data[1])`), with no monotonicity
enforcement by the client: the sequence of stored timetokens is
non-decreasing only when the server's returned values are. -/
theorem c8_timetoken (net : Net) (jl : List Nat → Option PyVal)
    (dec : String → PyVal → Except PyExc PyVal) (st : ClientState) (size : Int)
    (res : List Nat) (xs : List PyVal) (t : Int)
    (hc : st.connected = true)
    (hh : read_response_header net.headerStream = .ok size)
    (hb : (read_num_bytes size ⟨net.bodyStream, net.bodySched⟩).1 = .ok res)
    (hj : jl res = some (.pyList xs))
    (hg : xs.get? 1 = some (.pyInt t)) :
    ((pn_read net jl dec st).2.1).timestamp = t ∧
    (st.timestamp ≤ t → st.timestamp ≤ ((pn_read net jl dec st).2.1).timestamp) := by
  have hmain : ((pn_read net jl dec st).2.1).timestamp = t := by
    rw [pn_read_connected_ok hc hh, readRest_timestamp, readPhase2_timestamp hb hj hg]
  exact ⟨hmain, fun hle => by rw [hmain]; exact hle⟩

/-- Witness for C8 amended: one successful read against `net8a` stores the
returned timetoken 5. -/
theorem c8_witness :
    ((pn_read net8a jl8 dec0 stA).2.1).timestamp = 5 ∧
    (stA.timestamp ≤ 5 → stA.timestamp ≤ ((pn_read net8a jl8 dec0 stA).2.1).timestamp) :=
  c8_timetoken net8a jl8 dec0 stA 1 [48] [.pyList [], .pyInt 5] 5 rfl rfl rfl rfl rfl

/-- The body phase never consults the decrypt collaborator when the stored
cipher key is the empty string. -/
lemma readPhase2_dec_indep {net : Net} {jl : List Nat → Option PyVal}
    (dec dec2 : String → PyVal → Except PyExc PyVal) {size : Int} {st : ClientState}
    (hcip : st.cipher = "") :
    readPhase2 net jl dec size st = readPhase2 net jl dec2 size st := by
  unfold readPhase2
  split
  · rfl
  · split
    · rfl
    · split
      · rfl
      · split
        · rfl
        · split
          · rfl
          · simp [hcip]

/-- Lifting of `readPhase2_dec_indep` through the `except` wrapper. -/
lemma readRest_dec_indep {net : Net} {jl : List Nat → Option PyVal}
    (dec dec2 : String → PyVal → Except PyExc PyVal) {size : Int} {st : ClientState}
    {acts : List SockAct} (hcip : st.cipher = "") :
    readRest net jl dec size st acts = readRest net jl dec2 size st acts := by
  unfold readRest
  rw [readPhase2_dec_indep dec dec2 hcip]

/-- C9: with the cipher key empty (the `subscribe()` default), `read()`
never invokes the decryption step — its entire result is independent of the
decrypt collaborator — and on a successful parse it returns the decoded
first element of the body unmodified. -/
theorem c9_empty_cipher (net : Net) (jl : List Nat → Option PyVal)
    (dec dec2 : String → PyVal → Except PyExc PyVal) (st : ClientState)
    (hcip : st.cipher = "") :
    pn_read net jl dec st = pn_read net jl dec2 st ∧
    (∀ (size : Int) (res : List Nat) (xs : List PyVal) (d1 : PyVal) (t : Int) (x0 : PyVal),
      read_response_header net.headerStream = .ok size →
      (read_num_bytes size ⟨net.bodyStream, net.bodySched⟩).1 = .ok res →
      jl res = some (.pyList xs) →
      xs.get? 1 = some d1 → pyToInt d1 = .ok t → xs.get? 0 = some x0 →
      (pn_read net jl dec st).1 = .ok x0) := by
  have hci2 : ({st with connected := true} : ClientState).cipher = "" := hcip
  constructor
  · unfold pn_read
    congr 1
    · cases hh : read_response_header net.headerStream with
      | error e => cases e <;> rfl
      | ok size => exact readRest_dec_indep dec dec2 hcip
    · cases hh : read_response_header net.headerStream with
      | error e => cases e <;> rfl
      | ok size => exact readRest_dec_indep dec dec2 hci2
  · intro size res xs d1 t x0 hh hb hj h1 ht h0
    rw [pn_read_header_ok hh]
    by_cases hc : st.connected = true
    · rw [if_pos hc, readRest_of_phase2_ok (readPhase2_ok_val hcip hb hj h1 ht h0)]
    · rw [if_neg hc, readRest_of_phase2_ok (readPhase2_ok_val hci2 hb hj h1 ht h0)]

/-- Witness for C9: `stA` (empty cipher) against `net0`, comparing the
identity decryptor with an always-failing one. -/
theorem c9_witness :
    pn_read net0 jl0 dec0 stA = pn_read net0 jl0 decFail stA ∧
    (pn_read net0 jl0 dec0 stA).1 = .ok (PyVal.pyList []) :=
  ⟨(c9_empty_cipher net0 jl0 dec0 decFail stA rfl).1,
   (c9_empty_cipher net0 jl0 dec0 decFail stA rfl).2 2 [91, 93]
     [.pyList [], .pyInt 14] (.pyInt 14) 14 (.pyList []) rfl rfl rfl rfl rfl rfl⟩

end PubnubLight
